import Mathlib

/-!
Shallow embedding of `src/network/request_responses.rs`: the request-response
multiplexer (`RequestResponsesBehaviour`), its length-prefixed wire codec
(`GenericCodec`), and the surrounding data model.  Pure functions of the source
become Lean functions; the stateful `poll` progress step becomes an explicit
state-passing step function.  Machine integers (`usize`) are modelled as `Nat`
with an explicit `2 ^ 64` overflow check where the source's varint reader
performs one.  External collaborators (the libp2p `RequestResponse` behaviour,
the mpsc submission channel, the oneshot reply slot) are modelled as explicit
state: queues of pending actions, a bounded queue, and the status of each
pending-response task.
-/

namespace RequestResponses

/-- Opaque peer identifier (`PeerId`). -/
abbrev PeerId := Nat

/-- Opaque connection identifier (`ConnectionId`). -/
abbrev ConnectionId := Nat

/-- Opaque multiaddress (`Multiaddr`). -/
abbrev Multiaddr := Nat

/-- Outbound request identifier (`RequestId`), allocated monotonically. -/
abbrev RequestId := Nat

/-- Opaque handle onto the peer substream used to write a response back
(`ResponseChannel<Vec<u8>>`). -/
abbrev ResponseChannel := Nat

/-- A request or response payload (`Vec<u8>`); bytes modelled as `Nat`. -/
abbrev Payload := List Nat

/-- Protocol name on the wire (`Cow<str>`), e.g. `/foo/bar`. -/
abbrev ProtocolName := String

/-- A span of time (`std::time::Duration`), modelled in nanoseconds. -/
abbrev Duration := Nat

/-- `Duration::from_secs`. -/
def Duration.fromSecs (s : Nat) : Duration := s * 1000000000

/-- Opaque model of the external `libp2p::request_response::InboundFailure`
error enumeration. -/
abbrev InboundFailure := Nat

/-- Opaque model of the external `libp2p::request_response::OutboundFailure`
error enumeration. -/
abbrev OutboundFailure := Nat

/-- Rust's `Result<A, E>`. -/
inductive RResult (α : Type) (ε : Type) where
  | ok (value : α)
  | err (error : ε)
deriving DecidableEq

/-- Rust's `Result::is_ok`. -/
def RResult.isOk {α ε : Type} : RResult α ε → Bool
  | .ok _ => true
  | .err _ => false

/-! ### The length-prefixed codec (`GenericCodec`) -/

/-- The codec of one protocol: holds only the two size bounds
(`GenericCodec { max_request_size, max_response_size }`). -/
structure GenericCodec where
  max_request_size : Nat
  max_response_size : Nat
deriving DecidableEq

/-- Unsigned LEB128 decoding: little-endian groups of seven payload bits with
the continuation flag in the most significant bit.  Returns the decoded value
and the remaining stream, or `none` when the stream ends mid-varint. -/
def readVarint : List Nat → Option (Nat × List Nat)
  | [] => none
  | b :: rest =>
    if b < 128 then some (b, rest)
    else
      match readVarint rest with
      | some (v, rest') => some (b % 128 + 128 * v, rest')
      | none => none

/-- Model of `unsigned_varint::aio::read_usize`: LEB128 decoding with the
`usize` overflow check (values must fit 64 bits).  `none` covers both the
end-of-stream and the overflow failure; the source maps every such failure to
an `InvalidInput` I/O error. -/
def readUsize (input : List Nat) : Option (Nat × List Nat) :=
  match readVarint input with
  | some (v, rest) => if v < 2 ^ 64 then some (v, rest) else none
  | none => none

/-- Unsigned LEB128 encoding (`unsigned_varint::encode::usize`). -/
def writeVarint (n : Nat) : List Nat :=
  if _h : n < 128 then [n]
  else (n % 128 + 128) :: writeVarint (n / 128)
decreasing_by exact Nat.div_lt_self (by omega) (by omega)

/-- The `std::io::ErrorKind` values produced by the codec. -/
inductive ErrorKind where
  | invalidInput
  | unexpectedEof
deriving DecidableEq

/-- Errors of the codec read path.  `varintError` is a failed length decode
(wrapped into `InvalidInput` by the source); `sizeExceeded length limit` is the
"size exceeds limit: length > limit" rejection; `unexpectedEof` is a failed
`read_exact` of the payload. -/
inductive CodecError where
  | varintError
  | sizeExceeded (length : Nat) (limit : Nat)
  | unexpectedEof
deriving DecidableEq

/-- The `io::ErrorKind` a `CodecError` is reported with. -/
def CodecError.kind : CodecError → ErrorKind
  | .varintError => .invalidInput
  | .sizeExceeded _ _ => .invalidInput
  | .unexpectedEof => .unexpectedEof

/-- Result of a codec read: the decoded payload (or the error) together with
the part of the input stream that was not consumed. -/
inductive ReadResult where
  | ok (payload : Payload) (rest : List Nat)
  | err (e : CodecError) (rest : List Nat)
deriving DecidableEq

/-- `GenericCodec::read_request`: decode a varint length, reject it when it
exceeds `max_request_size` (before touching any payload byte), otherwise read
exactly that many payload bytes. -/
def GenericCodec.read_request (c : GenericCodec) (input : List Nat) : ReadResult :=
  match readUsize input with
  | none => .err .varintError []
  | some (length, rest) =>
    if c.max_request_size < length then
      .err (.sizeExceeded length c.max_request_size) rest
    else if length ≤ rest.length then
      .ok (rest.take length) (rest.drop length)
    else
      .err .unexpectedEof []

/-- `GenericCodec::read_response`: symmetric to `read_request`, bounded by
`max_response_size`. -/
def GenericCodec.read_response (c : GenericCodec) (input : List Nat) : ReadResult :=
  match readUsize input with
  | none => .err .varintError []
  | some (length, rest) =>
    if c.max_response_size < length then
      .err (.sizeExceeded length c.max_response_size) rest
    else if length ≤ rest.length then
      .ok (rest.take length) (rest.drop length)
    else
      .err .unexpectedEof []

/-- Bytes written on a substream, plus whether the write side was closed. -/
structure WriteOutput where
  bytes : List Nat
  closed : Bool
deriving DecidableEq

/-- `GenericCodec::write_request`: write `varint(len(req))`, then the payload,
then close the write side.  The codec parameter is the `&mut self` receiver; it
is never consulted. -/
def GenericCodec.write_request (_c : GenericCodec) (req : Payload) : WriteOutput :=
  { bytes := writeVarint req.length ++ req, closed := true }

/-- `GenericCodec::write_response`: symmetric to `write_request`. -/
def GenericCodec.write_response (_c : GenericCodec) (res : Payload) : WriteOutput :=
  { bytes := writeVarint res.length ++ res, closed := true }

/-! ### Data model of the multiplexer -/

/-- `ProtocolSupport` of the external libp2p request-response behaviour. -/
inductive ProtocolSupport where
  | inbound
  | outbound
  | full
deriving DecidableEq

/-- `IncomingRequest { origin, request_bytes, answer }`: the element pushed on
the submission channel.  The oneshot `answer` sender is not carried as data;
whether it was handed over (or dropped) is modelled by the pending-response
task's status (`PendingTask`). -/
structure IncomingRequest where
  origin : PeerId
  request_bytes : Payload
deriving DecidableEq

/-- State of a bounded `mpsc::Sender<IncomingRequest>` submission channel.
`try_send` fails exactly when the channel is closed or the queue is full. -/
structure SubmissionChannel where
  capacity : Nat
  queue : List IncomingRequest
  closed : Bool
deriving DecidableEq

/-- `RequestResponseMessage`: an inbound request (with the channel to answer
on) or a response to one of our outbound requests. -/
inductive RRMessage where
  | request (request : Payload) (channel : ResponseChannel)
  | response (request_id : RequestId) (response : Payload)
deriving DecidableEq

/-- `RequestResponseEvent` surfaced by one underlying behaviour. -/
inductive RREvent where
  | message (peer : PeerId) (message : RRMessage)
  | outboundFailure (peer : PeerId) (request_id : RequestId) (error : OutboundFailure)
  | inboundFailure (peer : PeerId) (error : InboundFailure)
deriving DecidableEq

/-- `NetworkBehaviourAction` yielded by one underlying `RequestResponse`
behaviour when polled.  Handler in-events are opaque (`Nat`). -/
inductive InnerAction where
  | generateEvent (ev : RREvent)
  | dialAddress (address : Multiaddr)
  | dialPeer (peer_id : PeerId) (condition : Nat)
  | notifyHandler (peer_id : PeerId) (handler : Nat) (event : Nat)
  | reportObservedAddr (address : Multiaddr)
deriving DecidableEq

/-- State of one registered per-protocol endpoint: the external
`RequestResponse<GenericCodec>` behaviour instance.  Its configuration is the
codec, the connection keep-alive, the request timeout and the advertised
protocol support; its dynamic state is modelled observationally by explicit
logs and queues: connected peers, the outbound request counter and table, the
responses handed to `send_response`, the actions its `poll` will yield, and the
handler events delivered via `inject_event`. -/
structure RequestResponseState where
  codec : GenericCodec
  keepAlive : Duration
  requestTimeout : Duration
  support : ProtocolSupport
  connectedPeers : List PeerId
  nextRequestId : RequestId
  pendingOutbound : List (PeerId × RequestId × Payload)
  sentResponses : List (ResponseChannel × Payload)
  pendingActions : List InnerAction
  injectedEvents : List (PeerId × ConnectionId × Nat)
deriving DecidableEq

/-- One entry of the `protocols` map: the protocol name, its behaviour
instance, and the optional submission channel ("response builder"). -/
structure ProtocolEntry where
  name : ProtocolName
  behaviour : RequestResponseState
  respBuilder : Option SubmissionChannel
deriving DecidableEq

/-- `RequestProcessingOutcome`: what a pending-response future resolves to. -/
inductive RequestProcessingOutcome where
  | pendingResponse (protocol : ProtocolName) (inner_channel : ResponseChannel) (response : Payload)
  | busy (peer : PeerId) (protocol : ProtocolName)
deriving DecidableEq

/-- One future of the `pending_responses` `FuturesUnordered` set.  `ready o`
is a task whose oneshot receiver has resolved (to a response, or to `Busy`
because the sender was dropped); `notReady` is a task still awaiting the
external producer. -/
inductive PendingTask where
  | ready (outcome : RequestProcessingOutcome)
  | notReady (peer : PeerId) (protocol : ProtocolName) (inner_channel : ResponseChannel)
deriving DecidableEq

/-- `InboundError`: why an inbound request failed. -/
inductive InboundError where
  | busy
  | network (e : InboundFailure)
deriving DecidableEq

/-- `Event` generated by the `RequestResponsesBehaviour`. -/
inductive Event where
  | inboundRequest (peer : PeerId) (protocol : ProtocolName)
      (outcome : RResult Duration InboundError)
  | outboundFinished (request_id : RequestId)
      (outcome : RResult Payload OutboundFailure)
deriving DecidableEq

/-- `NetworkBehaviourAction` returned by the multiplexer's own `poll`: same as
`InnerAction` but with its own `Event` type and with handler events tagged by
the originating protocol name. -/
inductive OuterAction where
  | generateEvent (ev : Event)
  | dialAddress (address : Multiaddr)
  | dialPeer (peer_id : PeerId) (condition : Nat)
  | notifyHandler (peer_id : PeerId) (handler : Nat) (event : ProtocolName × Nat)
  | reportObservedAddr (address : Multiaddr)
deriving DecidableEq

/-- `Poll<NetworkBehaviourAction<..>>`: the value of one progress step. -/
inductive PollResult where
  | ready (action : OuterAction)
  | pending
deriving DecidableEq

/-- `RegisterError`: error when registering the protocol list. -/
inductive RegisterError where
  | duplicateProtocol (name : ProtocolName)
deriving DecidableEq

/-- `SendRequestError`: error when initiating an outbound request. -/
inductive SendRequestError where
  | notConnected
  | unknownProtocol
deriving DecidableEq

/-- Configuration of a single request-response protocol (`ProtocolConfig`). -/
structure ProtocolConfig where
  name : ProtocolName
  max_request_size : Nat
  max_response_size : Nat
  request_timeout : Duration
  requests_processing : Option SubmissionChannel
deriving DecidableEq

/-- The multiplexer: the protocol map (modelled as an insertion-ordered list
with unique names) plus the unordered set of pending-response tasks. -/
structure RequestResponsesBehaviour where
  protocols : List ProtocolEntry
  pendingResponses : List PendingTask
deriving DecidableEq

/-! ### Operations of the multiplexer -/

/-- `HashMap::get` over the protocol map: first entry with the given name. -/
def findEntry (protos : List ProtocolEntry) (name : ProtocolName) : Option ProtocolEntry :=
  protos.find? (fun e => e.name == name)

/-- Apply `f` to the behaviour of the first entry with the given name
(models `HashMap::get_mut` followed by a mutating call). -/
def updateBehaviour (protos : List ProtocolEntry) (name : ProtocolName)
    (f : RequestResponseState → RequestResponseState) : List ProtocolEntry :=
  match protos with
  | [] => []
  | e :: rest =>
    if e.name == name then { e with behaviour := f e.behaviour } :: rest
    else e :: updateBehaviour rest name f

/-- The endpoint built for one `ProtocolConfig` by `new`: keep-alive of 10
seconds, the configured request timeout, `Full` support when a submission
channel is present and `Outbound` otherwise, and the codec carrying the two
size limits. -/
def mkEntry (protocol : ProtocolConfig) : ProtocolEntry :=
  { name := protocol.name
    behaviour :=
      { codec :=
          { max_request_size := protocol.max_request_size
            max_response_size := protocol.max_response_size }
        keepAlive := Duration.fromSecs 10
        requestTimeout := protocol.request_timeout
        support := if protocol.requests_processing.isSome then .full else .outbound
        connectedPeers := []
        nextRequestId := 0
        pendingOutbound := []
        sentResponses := []
        pendingActions := []
        injectedEvents := [] }
    respBuilder := protocol.requests_processing }

/-- The registration loop of `RequestResponsesBehaviour::new`: insert each
protocol into the map, failing with `DuplicateProtocol` (carrying the occupied
entry's key) on a name collision. -/
def newLoop : List ProtocolConfig → List ProtocolEntry →
    RResult RequestResponsesBehaviour RegisterError
  | [], protocols => .ok { protocols := protocols, pendingResponses := [] }
  | protocol :: rest, protocols =>
    match findEntry protocols protocol.name with
    | none => newLoop rest (protocols ++ [mkEntry protocol])
    | some e => .err (.duplicateProtocol e.name)

/-- `RequestResponsesBehaviour::new`. -/
def new (list : List ProtocolConfig) : RResult RequestResponsesBehaviour RegisterError :=
  newLoop list []

/-- `RequestResponsesBehaviour::send_request`: `UnknownProtocol` when the name
is not registered, `NotConnected` when the endpoint does not report the target
as connected, otherwise allocate the next `RequestId` and hand the request to
the endpoint. -/
def send_request (st : RequestResponsesBehaviour) (target : PeerId)
    (protocol : ProtocolName) (request : Payload) :
    RResult (RequestId × RequestResponsesBehaviour) SendRequestError :=
  match findEntry st.protocols protocol with
  | some e =>
    if e.behaviour.connectedPeers.contains target then
      .ok (e.behaviour.nextRequestId,
        { st with
            protocols := updateBehaviour st.protocols protocol (fun b =>
              { b with
                  nextRequestId := b.nextRequestId + 1
                  pendingOutbound :=
                    b.pendingOutbound ++ [(target, b.nextRequestId, request)] }) })
    else .err .notConnected
  | none => .err .unknownProtocol

/-- `RequestResponsesBehaviour::inject_event`: forward the handler envelope to
the endpoint whose registered name equals the envelope's tag; when no such
endpoint exists only a warning is logged and the state is untouched. -/
def inject_event (st : RequestResponsesBehaviour) (peer_id : PeerId)
    (connection : ConnectionId) (ev : ProtocolName × Nat) : RequestResponsesBehaviour :=
  match findEntry st.protocols ev.1 with
  | some _ =>
    { st with
        protocols := updateBehaviour st.protocols ev.1 (fun b =>
          { b with injectedEvents := b.injectedEvents ++ [(peer_id, connection, ev.2)] }) }
  | none => st

/-- `RequestResponse::send_response` on the endpoint registered under
`protocol` (a no-op when the name is absent, mirroring the `if let Some`). -/
def sendResponseTo (protos : List ProtocolEntry) (protocol : ProtocolName)
    (inner_channel : ResponseChannel) (response : Payload) : List ProtocolEntry :=
  updateBehaviour protos protocol (fun b =>
    { b with sentResponses := b.sentResponses ++ [(inner_channel, response)] })

/-- Stage 1 of `poll` (source lines 371-395): drain every ready task of the
`pending_responses` set, forwarding each `PendingResponse` to `send_response`,
and returning immediately on the first `Busy` with the corresponding
`InboundRequest` event.  `FuturesUnordered` is unordered; draining is modelled
as a left-to-right scan that yields each ready task exactly once. -/
def drainPending : List ProtocolEntry → List PendingTask →
    Option OuterAction × List ProtocolEntry × List PendingTask
  | protos, [] => (none, protos, [])
  | protos, .notReady peer protocol ch :: rest =>
    let r := drainPending protos rest
    (r.1, r.2.1, .notReady peer protocol ch :: r.2.2)
  | protos, .ready (.pendingResponse protocol ch response) :: rest =>
    drainPending (sendResponseTo protos protocol ch response) rest
  | protos, .ready (.busy peer protocol) :: rest =>
    (some (.generateEvent (.inboundRequest peer protocol (.err .busy))), protos, rest)

/-- `mpsc::Sender::try_send`: non-blocking; fails (dropping the element) when
the channel is closed or full. -/
def trySend (ch : SubmissionChannel) (req : IncomingRequest) : Bool × SubmissionChannel :=
  if ch.closed = true ∨ ch.capacity ≤ ch.queue.length then (false, ch)
  else (true, { ch with queue := ch.queue ++ [req] })

/-- The inner `while let Poll::Ready(ev) = behaviour.poll(..)` loop of stage 2
of `poll`, for the protocol named `protocol` (source lines 399-505).  An
inbound request submits an `IncomingRequest` to the response builder with a
non-blocking send, pushes a new task onto the pending-response set — ready with
`Busy` right away when the oneshot sender was dropped because the send failed
or no builder exists — and `continue`s with the same behaviour's next action;
every other action ends the step with a ready value. -/
def pollActions (protocol : ProtocolName) :
    Option SubmissionChannel → List PendingTask → List InnerAction →
    Option OuterAction × List InnerAction × Option SubmissionChannel × List PendingTask
  | respBuilder, pending, [] => (none, [], respBuilder, pending)
  | respBuilder, pending, .generateEvent (.message peer (.request request channel)) :: rest =>
    let sent : Bool × Option SubmissionChannel :=
      match respBuilder with
      | some ch =>
        let r := trySend ch { origin := peer, request_bytes := request }
        (r.1, some r.2)
      | none => (false, none)
    let newTask :=
      if sent.1 then PendingTask.notReady peer protocol channel
      else PendingTask.ready (.busy peer protocol)
    pollActions protocol sent.2 (pending ++ [newTask]) rest
  | respBuilder, pending, .generateEvent (.message _ (.response request_id response)) :: rest =>
    (some (.generateEvent (.outboundFinished request_id (.ok response))),
      rest, respBuilder, pending)
  | respBuilder, pending, .generateEvent (.outboundFailure _ request_id error) :: rest =>
    (some (.generateEvent (.outboundFinished request_id (.err error))),
      rest, respBuilder, pending)
  | respBuilder, pending, .generateEvent (.inboundFailure peer error) :: rest =>
    (some (.generateEvent (.inboundRequest peer protocol (.err (.network error)))),
      rest, respBuilder, pending)
  | respBuilder, pending, .dialAddress address :: rest =>
    (some (.dialAddress address), rest, respBuilder, pending)
  | respBuilder, pending, .dialPeer peer_id condition :: rest =>
    (some (.dialPeer peer_id condition), rest, respBuilder, pending)
  | respBuilder, pending, .notifyHandler peer_id handler event :: rest =>
    (some (.notifyHandler peer_id handler (protocol, event)), rest, respBuilder, pending)
  | respBuilder, pending, .reportObservedAddr address :: rest =>
    (some (.reportObservedAddr address), rest, respBuilder, pending)

/-- Stage 2 of `poll`: visit each protocol entry in iteration order, draining
its behaviour's ready actions; the first ready outer action ends the step. -/
def pollProtoList : List ProtocolEntry → List PendingTask →
    Option OuterAction × List ProtocolEntry × List PendingTask
  | [], pending => (none, [], pending)
  | e :: rest, pending =>
    let r := pollActions e.name e.respBuilder pending e.behaviour.pendingActions
    let e' : ProtocolEntry :=
      { e with
          behaviour := { e.behaviour with pendingActions := r.2.1 }
          respBuilder := r.2.2.1 }
    match r.1 with
    | some act => (some act, e' :: rest, r.2.2.2)
    | none =>
      let r2 := pollProtoList rest r.2.2.2
      (r2.1, e' :: r2.2.1, r2.2.2)

/-- `RequestResponsesBehaviour::poll`, the multiplexer's progress step: first
drain the pending-response set (guarded by the `is_empty` check of the
source), then poll every protocol behaviour; `Pending` when nothing is ready.
Note that after stage 1 has run, control never returns to the pending-response
set within the same step: a task pushed during stage 2 (the `continue` of the
source resumes the same behaviour's inner loop) stays unpolled until the next
step. -/
def poll (st : RequestResponsesBehaviour) : PollResult × RequestResponsesBehaviour :=
  let d :=
    if st.pendingResponses.isEmpty then (none, st.protocols, st.pendingResponses)
    else drainPending st.protocols st.pendingResponses
  match d.1 with
  | some act => (.ready act, { protocols := d.2.1, pendingResponses := d.2.2 })
  | none =>
    let r := pollProtoList d.2.1 d.2.2
    match r.1 with
    | some act => (.ready act, { protocols := r.2.1, pendingResponses := r.2.2 })
    | none => (.pending, { protocols := r.2.1, pendingResponses := r.2.2 })

/-- Environment step (not part of the multiplexer): the external response
producer answers every pending reply slot with `response`, turning each
not-ready task into a ready `PendingResponse`. -/
def producerAnswer (st : RequestResponsesBehaviour) (response : Payload) :
    RequestResponsesBehaviour :=
  { st with
      pendingResponses := st.pendingResponses.map (fun t =>
        match t with
        | .notReady _ protocol ch => .ready (.pendingResponse protocol ch response)
        | t => t) }

/-- Observation helper: does an outer action carry an
`InboundRequest { outcome: Ok(..) }` event? -/
def actionInboundOk : OuterAction → Bool
  | .generateEvent (.inboundRequest _ _ (.ok _)) => true
  | _ => false

/-- `actionInboundOk` lifted to the optional action of the poll stages. -/
def optActionInboundOk : Option OuterAction → Bool
  | some a => actionInboundOk a
  | none => false

/-- `actionInboundOk` lifted to the result of a whole progress step. -/
def pollResultInboundOk : PollResult → Bool
  | .ready a => actionInboundOk a
  | .pending => false

/-! ### Concrete scenarios (test fixtures for the executable model) -/

/-- The protocol name used by the concrete scenarios. -/
def protoA : ProtocolName := "/rq/1"

/-- A freshly registered endpoint with 1024-byte limits and a 5 s timeout. -/
def epBase : RequestResponseState :=
  { codec := { max_request_size := 1024, max_response_size := 1024 }
    keepAlive := Duration.fromSecs 10
    requestTimeout := Duration.fromSecs 5
    support := .full
    connectedPeers := []
    nextRequestId := 0
    pendingOutbound := []
    sentResponses := []
    pendingActions := []
    injectedEvents := [] }

/-- Happy-path scenario, step 0: one `Full` protocol whose behaviour has
surfaced an inbound request from peer 5 with bytes `[1, 2]` on reply channel
0; the submission channel (capacity 4) is empty; no pending tasks. -/
def stC1 : RequestResponsesBehaviour :=
  { protocols :=
      [{ name := protoA
         behaviour := { epBase with
           pendingActions := [.generateEvent (.message 5 (.request [1, 2] 0))] }
         respBuilder := some { capacity := 4, queue := [], closed := false } }]
    pendingResponses := [] }

/-- Happy-path scenario after one progress step: the request was submitted to
the producer and a not-ready task awaits the reply slot. -/
def stC1a : RequestResponsesBehaviour :=
  { protocols :=
      [{ name := protoA
         behaviour := epBase
         respBuilder := some
           { capacity := 4
             queue := [{ origin := 5, request_bytes := [1, 2] }]
             closed := false } }]
    pendingResponses := [.notReady 5 protoA 0] }

/-- Happy-path scenario after the producer answered `[9]` and the next
progress step wrote the response: the response is on the substream and the
task set is empty — and no event was emitted. -/
def stC1c : RequestResponsesBehaviour :=
  { protocols :=
      [{ name := protoA
         behaviour := { epBase with sentResponses := [(0, [9])] }
         respBuilder := some
           { capacity := 4
             queue := [{ origin := 5, request_bytes := [1, 2] }]
             closed := false } }]
    pendingResponses := [] }

/-- Busy scenario, step 0: as `stC1` but the submission channel has capacity
0, so it is full at the moment the inbound request (bytes `[1]`) arrives. -/
def stC2 : RequestResponsesBehaviour :=
  { protocols :=
      [{ name := protoA
         behaviour := { epBase with
           pendingActions := [.generateEvent (.message 5 (.request [1] 0))] }
         respBuilder := some { capacity := 0, queue := [], closed := false } }]
    pendingResponses := [] }

/-- Busy scenario after one progress step: the reply slot was dropped by the
failed `try_send`, so the pushed task is ready with `Busy` — yet it sits
unpolled in the pending set. -/
def stC2a : RequestResponsesBehaviour :=
  { protocols :=
      [{ name := protoA
         behaviour := epBase
         respBuilder := some { capacity := 0, queue := [], closed := false } }]
    pendingResponses := [.ready (.busy 5 protoA)] }

/-- A configuration with no submission channel, used twice to trigger the
duplicate-name registration error. -/
def cfgDupA : ProtocolConfig :=
  { name := protoA
    max_request_size := 16
    max_response_size := 16
    request_timeout := Duration.fromSecs 5
    requests_processing := none }

/-- An outbound-only configuration (no submission channel). -/
def cfgOutbound : ProtocolConfig :=
  { name := protoA
    max_request_size := 16
    max_response_size := 16
    request_timeout := Duration.fromSecs 5
    requests_processing := none }

/-- An endpoint connected to peer 7. -/
def epConnected : RequestResponseState :=
  { epBase with connectedPeers := [7] }

/-- A behaviour with one protocol whose endpoint is connected to peer 7. -/
def stC6 : RequestResponsesBehaviour :=
  { protocols := [{ name := protoA, behaviour := epConnected, respBuilder := none }]
    pendingResponses := [] }

/-- A behaviour with the single protocol `/rq/1` registered. -/
def stC10 : RequestResponsesBehaviour :=
  { protocols := [{ name := protoA, behaviour := epBase, respBuilder := none }]
    pendingResponses := [] }

/-- A protocol name that is never registered. -/
def protoNope : ProtocolName := "/nope"

/-! ### Helper lemmas -/

theorem readVarint_writeVarint : ∀ (n : Nat) (s : List Nat),
    readVarint (writeVarint n ++ s) = some (n, s) := by
  intro n
  induction n using Nat.strong_induction_on with
  | _ n ih =>
    intro s
    by_cases h : n < 128
    · rw [writeVarint]
      simp [h, readVarint, Nat.mod_eq_of_lt h]
    · rw [writeVarint]
      simp only [h, dite_false, if_neg h]
      have hb : ¬ (n % 128 + 128 < 128) := by omega
      rw [List.cons_append, readVarint, if_neg hb,
        ih (n / 128) (Nat.div_lt_self (by omega) (by omega)) s]
      simp only [Option.some.injEq, Prod.mk.injEq]
      exact ⟨by omega, trivial⟩

theorem readUsize_writeVarint (n : Nat) (s : List Nat) (h : n < 2 ^ 64) :
    readUsize (writeVarint n ++ s) = some (n, s) := by
  rw [readUsize, readVarint_writeVarint]
  have h' : n < 18446744073709551616 := by omega
  simp [h']

theorem drainPending_not_inbound_ok (pending : List PendingTask) :
    ∀ protos, optActionInboundOk (drainPending protos pending).1 = false := by
  induction pending with
  | nil => intro protos; rfl
  | cons t rest ih =>
    intro protos
    cases t with
    | notReady peer protocol ch => simpa [drainPending] using ih protos
    | ready o =>
      cases o with
      | pendingResponse protocol ch response =>
        simpa [drainPending] using ih (sendResponseTo protos protocol ch response)
      | busy peer protocol => simp [drainPending, optActionInboundOk, actionInboundOk]

theorem pollActions_not_inbound_ok (protocol : ProtocolName) (acts : List InnerAction) :
    ∀ rb pending, optActionInboundOk (pollActions protocol rb pending acts).1 = false := by
  induction acts with
  | nil => intro rb pending; rfl
  | cons act rest ih =>
    intro rb pending
    cases act with
    | generateEvent ev =>
      cases ev with
      | message peer m =>
        cases m with
        | request req ch => simp only [pollActions]; exact ih _ _
        | response id resp => simp [pollActions, optActionInboundOk, actionInboundOk]
      | outboundFailure p id e => simp [pollActions, optActionInboundOk, actionInboundOk]
      | inboundFailure p e => simp [pollActions, optActionInboundOk, actionInboundOk]
    | dialAddress a => simp [pollActions, optActionInboundOk, actionInboundOk]
    | dialPeer p c => simp [pollActions, optActionInboundOk, actionInboundOk]
    | notifyHandler p h e => simp [pollActions, optActionInboundOk, actionInboundOk]
    | reportObservedAddr a => simp [pollActions, optActionInboundOk, actionInboundOk]

theorem pollProtoList_not_inbound_ok (protos : List ProtocolEntry) :
    ∀ pending, optActionInboundOk (pollProtoList protos pending).1 = false := by
  induction protos with
  | nil => intro pending; rfl
  | cons e rest ih =>
    intro pending
    have hp := pollActions_not_inbound_ok e.name e.behaviour.pendingActions
      e.respBuilder pending
    rw [pollProtoList]
    cases hact : (pollActions e.name e.respBuilder pending e.behaviour.pendingActions).1 with
    | some a =>
      rw [hact] at hp
      simpa [hact] using hp
    | none => simpa [hact] using ih _

theorem poll_not_inbound_ok (st : RequestResponsesBehaviour) :
    pollResultInboundOk (poll st).1 = false := by
  rw [poll]
  by_cases he : st.pendingResponses.isEmpty
  · simp only [he, if_pos]
    cases hr : (pollProtoList st.protocols st.pendingResponses).1 with
    | some a =>
      have := pollProtoList_not_inbound_ok st.protocols st.pendingResponses
      rw [hr] at this
      simpa [hr, pollResultInboundOk] using this
    | none => simp [hr, pollResultInboundOk]
  · simp only [he, if_neg]
    cases hd : (drainPending st.protocols st.pendingResponses).1 with
    | some a =>
      have := drainPending_not_inbound_ok st.pendingResponses st.protocols
      rw [hd] at this
      simpa [hd, pollResultInboundOk] using this
    | none =>
      cases hr : (pollProtoList (drainPending st.protocols st.pendingResponses).2.1
          (drainPending st.protocols st.pendingResponses).2.2).1 with
      | some a =>
        have := pollProtoList_not_inbound_ok
          (drainPending st.protocols st.pendingResponses).2.1
          (drainPending st.protocols st.pendingResponses).2.2
        rw [hr] at this
        simpa [hd, hr, pollResultInboundOk] using this
      | none => simp [hd, hr, pollResultInboundOk]

theorem mkEntry_name (cfg : ProtocolConfig) : (mkEntry cfg).name = cfg.name := rfl

theorem findEntry_eq_none_iff (protos : List ProtocolEntry) (n : ProtocolName) :
    findEntry protos n = none ↔ ∀ e ∈ protos, e.name ≠ n := by
  simp [findEntry, List.find?_eq_none]

theorem newLoop_ok_protocols (rest : List ProtocolConfig) :
    ∀ acc b, newLoop rest acc = .ok b → b.protocols = acc ++ rest.map mkEntry := by
  induction rest with
  | nil =>
    intro acc b h
    rw [newLoop] at h
    cases h
    simp
  | cons cfg rest ih =>
    intro acc b h
    rw [newLoop] at h
    cases hf : findEntry acc cfg.name with
    | none =>
      rw [hf] at h
      have := ih (acc ++ [mkEntry cfg]) b h
      simpa using this
    | some e => rw [hf] at h; cases h

theorem newLoop_isOk_iff (rest : List ProtocolConfig) :
    ∀ acc, (acc.map (·.name)).Nodup →
      ((newLoop rest acc).isOk = true ↔
        (acc.map (·.name) ++ rest.map (·.name)).Nodup) := by
  induction rest with
  | nil =>
    intro acc hacc
    rw [newLoop]
    simpa [RResult.isOk] using hacc
  | cons cfg rest ih =>
    intro acc hacc
    rw [newLoop]
    cases hf : findEntry acc cfg.name with
    | none =>
      have hmem : cfg.name ∉ acc.map (·.name) := by
        rw [findEntry_eq_none_iff] at hf
        simp only [List.mem_map]
        rintro ⟨e, he, hn⟩
        exact hf e he hn
      have hacc' : ((acc ++ [mkEntry cfg]).map (·.name)).Nodup := by
        simp only [List.map_append, List.map_cons, List.map_nil]
        rw [List.nodup_append]
        exact ⟨hacc, List.nodup_singleton _, by
          intro a ha hb
          simp only [mkEntry_name, List.mem_singleton] at hb
          subst hb
          exact hmem ha⟩
      rw [ih (acc ++ [mkEntry cfg]) hacc']
      constructor
      · intro hnd
        simp only [List.map_append, List.map_cons, List.map_nil, mkEntry_name] at hnd
        rw [List.append_assoc] at hnd
        simpa using hnd
      · intro hnd
        simp only [List.map_append, List.map_cons, List.map_nil, mkEntry_name]
        rw [List.append_assoc]
        simpa using hnd
    | some e =>
      simp only [RResult.isOk]
      constructor
      · intro h; cases h
      · intro hnd
        exfalso
        have he : e ∈ acc := List.mem_of_find?_eq_some hf
        have hn : e.name = cfg.name := by
          have := List.find?_some hf
          simpa using this
        have hmem : cfg.name ∈ acc.map (·.name) := by
          exact List.mem_map.mpr ⟨e, he, hn⟩
        rw [List.nodup_append] at hnd
        exact hnd.2.2 hmem (by simp)

theorem newLoop_err_count (rest : List ProtocolConfig) :
    ∀ acc n, newLoop rest acc = .err (.duplicateProtocol n) →
      2 ≤ ((acc.map (·.name) ++ rest.map (·.name)).count n) := by
  induction rest with
  | nil => intro acc n h; rw [newLoop] at h; cases h
  | cons cfg rest ih =>
    intro acc n h
    rw [newLoop] at h
    cases hf : findEntry acc cfg.name with
    | none =>
      rw [hf] at h
      have := ih (acc ++ [mkEntry cfg]) n h
      simp only [List.map_append, List.map_cons, List.map_nil, mkEntry_name,
        List.append_assoc, List.singleton_append] at this ⊢
      exact this
    | some e =>
      rw [hf] at h
      cases h
      have he : e ∈ acc := List.mem_of_find?_eq_some hf
      have hn : e.name = cfg.name := by
        have := List.find?_some hf
        simpa using this
      have hmem : e.name ∈ acc.map (·.name) := List.mem_map.mpr ⟨e, he, rfl⟩
      have h1 : 1 ≤ (acc.map (·.name)).count e.name :=
        List.count_pos_iff.mpr hmem
      rw [hn] at h1
      rw [List.count_append]
      simp only [List.map_cons, List.count_cons, hn, beq_self_eq_true, if_true]
      omega

theorem findEntry_updateBehaviour (protos : List ProtocolEntry) (n : ProtocolName)
    (f : RequestResponseState → RequestResponseState) (e : ProtocolEntry)
    (h : findEntry protos n = some e) :
    findEntry (updateBehaviour protos n f) n = some { e with behaviour := f e.behaviour } := by
  induction protos with
  | nil => cases h
  | cons e0 rest ih =>
    by_cases h0 : e0.name = n
    · rw [findEntry, List.find?_cons_of_pos _ (by simpa using h0)] at h
      cases h
      rw [updateBehaviour]
      simp only [h0, beq_self_eq_true, if_true]
      rw [findEntry, List.find?_cons_of_pos _ (by simp [h0])]
    · rw [findEntry, List.find?_cons_of_neg _ (by simpa using h0)] at h
      rw [updateBehaviour]
      simp only [beq_iff_eq, h0, if_false]
      rw [findEntry, List.find?_cons_of_neg _ (by simpa using h0)]
      exact ih h

theorem findEntry_split (protos : List ProtocolEntry) (n : ProtocolName)
    (e : ProtocolEntry) (h : findEntry protos n = some e) :
    ∃ pre post, protos = pre ++ e :: post ∧ (∀ x ∈ pre, x.name ≠ n) ∧ e.name = n ∧
      ∀ f, updateBehaviour protos n f = pre ++ { e with behaviour := f e.behaviour } :: post := by
  induction protos with
  | nil => cases h
  | cons e0 rest ih =>
    by_cases h0 : e0.name = n
    · rw [findEntry, List.find?_cons_of_pos _ (by simpa using h0)] at h
      cases h
      refine ⟨[], rest, by simp, by simp, h0, ?_⟩
      intro f
      rw [updateBehaviour]
      simp [h0]
    · rw [findEntry, List.find?_cons_of_neg _ (by simpa using h0)] at h
      obtain ⟨pre, post, hsplit, hpre, hname, hupd⟩ := ih h
      refine ⟨e0 :: pre, post, by simp [hsplit], ?_, hname, ?_⟩
      · intro x hx
        rcases List.mem_cons.mp hx with hx | hx
        · subst hx; exact h0
        · exact hpre x hx
      · intro f
        rw [updateBehaviour]
        simp only [beq_iff_eq, h0, if_false]
        rw [hupd f]
        simp

/-! ### Claim theorems -/

/-- C1: the claim says every inbound request that reached SUBMITTED produces
exactly one `InboundRequest` event — `Err(Busy)`, `Err(Network)`, or
`Ok(elapsed)` on success.  The code disagrees on the success leg: in the
happy-path run below the request is accepted, the producer answers `[9]`, the
progress step forwards the response to `send_response` — and every step
returns `Pending`, emitting no event at all; moreover no reachable progress
step can ever return an `InboundRequest` event with an `Ok` outcome, because
`poll` never constructs one. -/
theorem c1_inbound_success_emits_no_event :
    poll stC1 = (.pending, stC1a) ∧
    poll (producerAnswer stC1a [9]) = (.pending, stC1c) ∧
    stC1c.protocols.map (fun e => e.behaviour.sentResponses) = [[(0, [9])]] ∧
    stC1c.pendingResponses = [] ∧
    poll stC1c = (.pending, stC1c) ∧
    (∀ st : RequestResponsesBehaviour, pollResultInboundOk (poll st).1 = false) :=
  ⟨rfl, rfl, rfl, rfl, rfl, poll_not_inbound_ok⟩

/-- C2: the claim says a pending-response task pushed during a progress step
is polled before the step returns `Pending`.  The code disagrees: the
`continue` resumes the same endpoint's inner loop, never returning to the
pending-response set.  Below, the step that receives the inbound request over
a full submission channel pushes an already-ready `Busy` task and returns
`Pending` with the task still unpolled; only the NEXT step emits the `Busy`
event. -/
theorem c2_pushed_task_not_polled_in_same_step :
    poll stC2 = (.pending, stC2a) ∧
    stC2a.pendingResponses = [.ready (.busy 5 protoA)] ∧
    poll stC2a = (.ready (.generateEvent (.inboundRequest 5 protoA (.err .busy))),
      { protocols := stC2a.protocols, pendingResponses := [] }) :=
  ⟨rfl, rfl, rfl⟩

/-- C3: `read_request` first decodes a varint length `L`; when
`L > max_request_size` it fails with an `InvalidInput` error citing the limit
and consumes no payload byte beyond the length prefix; otherwise it reads
exactly `L` payload bytes and returns them.  `read_response` is symmetric,
bounded by `max_response_size`. -/
theorem c3_read_length_guard (c : GenericCodec) (input : List Nat) (L : Nat)
    (rest : List Nat) (h : readUsize input = some (L, rest)) :
    (c.max_request_size < L →
      c.read_request input = .err (.sizeExceeded L c.max_request_size) rest ∧
      (CodecError.sizeExceeded L c.max_request_size).kind = .invalidInput) ∧
    (L ≤ c.max_request_size → L ≤ rest.length →
      c.read_request input = .ok (rest.take L) (rest.drop L)) ∧
    (c.max_response_size < L →
      c.read_response input = .err (.sizeExceeded L c.max_response_size) rest ∧
      (CodecError.sizeExceeded L c.max_response_size).kind = .invalidInput) ∧
    (L ≤ c.max_response_size → L ≤ rest.length →
      c.read_response input = .ok (rest.take L) (rest.drop L)) := by
  refine ⟨?_, ?_, ?_, ?_⟩
  · intro hgt
    rw [GenericCodec.read_request, h]
    simp [hgt, CodecError.kind]
  · intro hle hlen
    rw [GenericCodec.read_request, h]
    have : ¬ c.max_request_size < L := by omega
    simp [this, hlen]
  · intro hgt
    rw [GenericCodec.read_response, h]
    simp [hgt, CodecError.kind]
  · intro hle hlen
    rw [GenericCodec.read_response, h]
    have : ¬ c.max_response_size < L := by omega
    simp [this, hlen]

/-- C3 witness: with limits 2/2, the declared length 3 is rejected citing the
limit, leaving the three payload bytes unconsumed. -/
theorem c3_witness :
    readUsize [3, 9, 9, 9] = some (3, [9, 9, 9]) ∧
    ((⟨2, 2⟩ : GenericCodec).max_request_size < 3 →
      (⟨2, 2⟩ : GenericCodec).read_request [3, 9, 9, 9]
        = .err (.sizeExceeded 3 2) [9, 9, 9] ∧
      (CodecError.sizeExceeded 3 (2 : Nat)).kind = .invalidInput) ∧
    ((3 : Nat) ≤ 2 → 3 ≤ ([9, 9, 9] : List Nat).length →
      (⟨2, 2⟩ : GenericCodec).read_request [3, 9, 9, 9]
        = .ok ([9, 9, 9].take 3) ([9, 9, 9].drop 3)) := by
  have h : readUsize [3, 9, 9, 9] = some (3, [9, 9, 9]) := rfl
  have := c3_read_length_guard ⟨2, 2⟩ [3, 9, 9, 9] 3 [9, 9, 9] h
  exact ⟨h, this.1, this.2.1⟩

/-- C4: codec round-trip — for every payload within the size limit, reading
back the bytes produced by the write side (varint length prefix followed by
the payload) yields exactly the payload, for requests and responses alike. -/
theorem c4_codec_round_trip (c : GenericCodec) (p q : Payload)
    (h1 : p.length ≤ c.max_request_size) (h2 : c.max_request_size < 2 ^ 64)
    (h3 : q.length ≤ c.max_response_size) (h4 : c.max_response_size < 2 ^ 64) :
    (c.write_request p).bytes = writeVarint p.length ++ p ∧
    c.read_request (c.write_request p).bytes = .ok p [] ∧
    (c.write_response q).bytes = writeVarint q.length ++ q ∧
    c.read_response (c.write_response q).bytes = .ok q [] := by
  refine ⟨rfl, ?_, rfl, ?_⟩
  · rw [GenericCodec.write_request, GenericCodec.read_request,
      readUsize_writeVarint p.length p (by omega)]
    have : ¬ c.max_request_size < p.length := by omega
    simp [this]
  · rw [GenericCodec.write_response, GenericCodec.read_response,
      readUsize_writeVarint q.length q (by omega)]
    have : ¬ c.max_response_size < q.length := by omega
    simp [this]

/-- C4 witness: round trip of `[1, 2]` and `[9]` under limits 4/4. -/
theorem c4_witness :
    ((([1, 2] : Payload).length ≤ 4 ∧ (4 : Nat) < 2 ^ 64) ∧
      (([9] : Payload).length ≤ 4 ∧ (4 : Nat) < 2 ^ 64)) ∧
    ((⟨4, 4⟩ : GenericCodec).read_request
        ((⟨4, 4⟩ : GenericCodec).write_request [1, 2]).bytes = .ok [1, 2] [] ∧
      (⟨4, 4⟩ : GenericCodec).read_response
        ((⟨4, 4⟩ : GenericCodec).write_response [9]).bytes = .ok [9] []) := by
  have := c4_codec_round_trip ⟨4, 4⟩ [1, 2] [9]
    (by decide) (by norm_num) (by decide) (by norm_num)
  exact ⟨⟨⟨by decide, by norm_num⟩, ⟨by decide, by norm_num⟩⟩, this.2.1, this.2.2.2⟩

/-- C5: `new(L)` succeeds iff no two entries of `L` share a name; on success
every name of `L` is registered; with a duplicated name it fails with
`DuplicateProtocol` carrying a name that occurs at least twice in `L`. -/
theorem c5_registration_name_uniqueness (L : List ProtocolConfig) :
    ((new L).isOk = true ↔ (L.map (·.name)).Nodup) ∧
    (∀ b, new L = .ok b → ∀ cfg ∈ L, ∃ e ∈ b.protocols, e.name = cfg.name) ∧
    (¬ (L.map (·.name)).Nodup →
      ∃ n, new L = .err (.duplicateProtocol n) ∧ 2 ≤ (L.map (·.name)).count n) := by
  refine ⟨?_, ?_, ?_⟩
  · have := newLoop_isOk_iff L [] (by simp)
    simpa [new] using this
  · intro b hb cfg hcfg
    have hp := newLoop_ok_protocols L [] b hb
    simp only [List.nil_append] at hp
    exact ⟨mkEntry cfg, by rw [hp]; exact List.mem_map.mpr ⟨cfg, hcfg, rfl⟩, mkEntry_name cfg⟩
  · intro hnd
    have hiff := newLoop_isOk_iff L [] (by simp)
    simp only [List.map_nil, List.nil_append] at hiff
    cases hres : new L with
    | ok b =>
      exfalso
      apply hnd
      rw [← hiff]
      rw [new] at hres
      rw [hres]
      rfl
    | err e =>
      cases e with
      | duplicateProtocol n =>
        refine ⟨n, rfl, ?_⟩
        have := newLoop_err_count L [] n (by rw [new] at hres; exact hres)
        simpa using this

/-- C5 witness: registering `/rq/1` twice fails with `DuplicateProtocol`. -/
theorem c5_witness :
    ¬ (([cfgDupA, cfgDupA].map (·.name)).Nodup) ∧
    ∃ n, new [cfgDupA, cfgDupA] = .err (.duplicateProtocol n) ∧
      2 ≤ (([cfgDupA, cfgDupA].map (·.name)).count n) := by
  have hnd : ¬ (([cfgDupA, cfgDupA].map (·.name)).Nodup) := by
    simp [cfgDupA]
  exact ⟨hnd, (c5_registration_name_uniqueness [cfgDupA, cfgDupA]).2.2 hnd⟩

/-- C6: `send_request` returns `UnknownProtocol` when the protocol name is not
registered, `NotConnected` when it is registered but the endpoint does not
report the target as connected, and otherwise a fresh `RequestId` after the
request has been handed to that protocol's endpoint. -/
theorem c6_send_request_errors (st : RequestResponsesBehaviour) (target : PeerId)
    (protocol : ProtocolName) (request : Payload) :
    (findEntry st.protocols protocol = none →
      send_request st target protocol request = .err .unknownProtocol) ∧
    (∀ e, findEntry st.protocols protocol = some e →
      e.behaviour.connectedPeers.contains target = false →
      send_request st target protocol request = .err .notConnected) ∧
    (∀ e, findEntry st.protocols protocol = some e →
      e.behaviour.connectedPeers.contains target = true →
      ∃ st', send_request st target protocol request
          = .ok (e.behaviour.nextRequestId, st') ∧
        ∃ e', findEntry st'.protocols protocol = some e' ∧
          e'.behaviour.pendingOutbound
            = e.behaviour.pendingOutbound
              ++ [(target, e.behaviour.nextRequestId, request)] ∧
          e'.behaviour.nextRequestId = e.behaviour.nextRequestId + 1) := by
  refine ⟨?_, ?_, ?_⟩
  · intro h
    rw [send_request, h]
  · intro e he hc
    simp only [send_request, he]
    rw [if_neg (by simpa using hc)]
  · intro e he hc
    simp only [send_request, he]
    rw [if_pos (by simpa using hc)]
    refine ⟨_, rfl, ?_⟩
    refine ⟨_, findEntry_updateBehaviour st.protocols protocol _ e he, rfl, rfl⟩

/-- C6 witness: on a behaviour connected to peer 7, `send_request` succeeds
with id 0 and the endpoint records the outbound request. -/
theorem c6_witness :
    ∃ st', send_request stC6 7 protoA [1] = .ok (0, st') ∧
      ∃ e', findEntry st'.protocols protoA = some e' ∧
        e'.behaviour.pendingOutbound = [(7, 0, [1])] ∧
        e'.behaviour.nextRequestId = 1 :=
  (c6_send_request_errors stC6 7 protoA [1]).2.2
    ⟨protoA, epConnected, none⟩ rfl rfl

/-- C7: when the submission channel is full at the moment an inbound request
is accepted, the reply slot is dropped at once, an
`InboundRequest { Err(Busy) }` event is emitted (on the following progress
step), no response bytes are written, and no progress step blocks: each one
returns. -/
theorem c7_full_channel_busy (nm : ProtocolName) (peer : PeerId) (reqBytes : Payload)
    (rc : ResponseChannel) (ch : SubmissionChannel) (ep0 : RequestResponseState)
    (h : ch.capacity ≤ ch.queue.length) :
    poll ⟨[⟨nm, { ep0 with pendingActions :=
        [.generateEvent (.message peer (.request reqBytes rc))] }, some ch⟩], []⟩
      = (.pending,
          ⟨[⟨nm, { ep0 with pendingActions := [] }, some ch⟩],
            [.ready (.busy peer nm)]⟩) ∧
    poll ⟨[⟨nm, { ep0 with pendingActions := [] }, some ch⟩], [.ready (.busy peer nm)]⟩
      = (.ready (.generateEvent (.inboundRequest peer nm (.err .busy))),
          ⟨[⟨nm, { ep0 with pendingActions := [] }, some ch⟩], []⟩) ∧
    ({ ep0 with pendingActions := [] } : RequestResponseState).sentResponses
      = ep0.sentResponses := by
  have htry : trySend ch { origin := peer, request_bytes := reqBytes } = (false, ch) := by
    rw [trySend, if_pos (Or.inr h)]
  refine ⟨?_, ?_, rfl⟩
  · rw [poll]
    simp only [List.isEmpty_nil, if_pos]
    rw [pollProtoList]
    simp only [pollActions, htry]
    rfl
  · rw [poll]
    simp only [List.isEmpty_cons, if_neg]
    rw [drainPending]
    rfl

/-- C7 witness: capacity-0 channel, inbound request from peer 5. -/
theorem c7_witness :
    (( { capacity := 0, queue := [], closed := false } : SubmissionChannel).capacity
      ≤ ({ capacity := 0, queue := [], closed := false } : SubmissionChannel).queue.length) ∧
    poll ⟨[⟨protoA, { epBase with pendingActions :=
        [.generateEvent (.message 5 (.request [1] 0))] },
        some { capacity := 0, queue := [], closed := false }⟩], []⟩
      = (.pending,
          ⟨[⟨protoA, { epBase with pendingActions := [] },
            some { capacity := 0, queue := [], closed := false }⟩],
            [.ready (.busy 5 protoA)]⟩) :=
  ⟨by decide,
    (c7_full_channel_busy protoA 5 [1] 0
      { capacity := 0, queue := [], closed := false } epBase (by decide)).1⟩

/-- C8: every installed endpoint carries a 10-second connection keep-alive and
the configured request timeout; its advertised role is `Full` exactly when the
config has a submission channel and `Outbound` (outbound-only) exactly when it
has none. -/
theorem c8_endpoint_configuration (L : List ProtocolConfig) (b : RequestResponsesBehaviour)
    (h : new L = .ok b) :
    ∀ cfg ∈ L, ∃ e ∈ b.protocols,
      e.name = cfg.name ∧
      e.behaviour.keepAlive = Duration.fromSecs 10 ∧
      e.behaviour.requestTimeout = cfg.request_timeout ∧
      (e.behaviour.support = .full ↔ cfg.requests_processing.isSome = true) ∧
      (e.behaviour.support = .outbound ↔ cfg.requests_processing = none) ∧
      e.respBuilder = cfg.requests_processing := by
  intro cfg hcfg
  have hp := newLoop_ok_protocols L [] b h
  simp only [List.nil_append] at hp
  refine ⟨mkEntry cfg, by rw [hp]; exact List.mem_map.mpr ⟨cfg, hcfg, rfl⟩,
    mkEntry_name cfg, rfl, rfl, ?_, ?_, rfl⟩
  · cases hrp : cfg.requests_processing with
    | none => simp [mkEntry, hrp]
    | some ch => simp [mkEntry, hrp]
  · cases hrp : cfg.requests_processing with
    | none => simp [mkEntry, hrp]
    | some ch => simp [mkEntry, hrp]

/-- C8 witness: registering one outbound-only protocol. -/
theorem c8_witness :
    new [cfgOutbound]
      = .ok { protocols := [mkEntry cfgOutbound], pendingResponses := [] } ∧
    ∀ cfg ∈ [cfgOutbound],
      ∃ e ∈ ({ protocols := [mkEntry cfgOutbound],
               pendingResponses := [] } : RequestResponsesBehaviour).protocols,
        e.name = cfg.name ∧
        e.behaviour.keepAlive = Duration.fromSecs 10 ∧
        e.behaviour.requestTimeout = cfg.request_timeout ∧
        (e.behaviour.support = .full ↔ cfg.requests_processing.isSome = true) ∧
        (e.behaviour.support = .outbound ↔ cfg.requests_processing = none) ∧
        e.respBuilder = cfg.requests_processing :=
  ⟨rfl, c8_endpoint_configuration [cfgOutbound]
    { protocols := [mkEntry cfgOutbound], pendingResponses := [] } rfl⟩

/-- C9: the write side never compares the payload length against the size
limits: for every payload and any two codec configurations the written bytes
agree, equal the varint length prefix followed by the full payload, and the
write side is closed — the limits act only on the read side. -/
theorem c9_write_side_never_checks_limits (c c' : GenericCodec) (p : Payload) :
    c.write_request p = c'.write_request p ∧
    c.write_response p = c'.write_response p ∧
    (c.write_request p).bytes = writeVarint p.length ++ p ∧
    (c.write_request p).closed = true ∧
    (c.write_response p).bytes = writeVarint p.length ++ p ∧
    (c.write_response p).closed = true :=
  ⟨rfl, rfl, rfl, rfl, rfl, rfl⟩

/-- C10: a handler envelope whose protocol tag is not registered is discarded
without failing and without touching any state; a matching envelope is
forwarded exactly to the endpoint registered under that name, all entries
before it (which do not bear the name) and after it being untouched. -/
theorem c10_inject_event_routing (st : RequestResponsesBehaviour) (peer : PeerId)
    (conn : ConnectionId) (p : ProtocolName) (ev : Nat) :
    (findEntry st.protocols p = none → inject_event st peer conn (p, ev) = st) ∧
    (∀ e, findEntry st.protocols p = some e →
      ∃ pre post, st.protocols = pre ++ e :: post ∧
        (∀ x ∈ pre, x.name ≠ p) ∧ e.name = p ∧
        (inject_event st peer conn (p, ev)).protocols
          = pre ++ { e with behaviour := { e.behaviour with
              injectedEvents := e.behaviour.injectedEvents ++ [(peer, conn, ev)] } } :: post ∧
        (inject_event st peer conn (p, ev)).pendingResponses = st.pendingResponses) := by
  constructor
  · intro h
    rw [inject_event]
    simp only [h]
  · intro e he
    obtain ⟨pre, post, hsplit, hpre, hname, hupd⟩ := findEntry_split st.protocols p e he
    refine ⟨pre, post, hsplit, hpre, hname, ?_, ?_⟩
    · rw [inject_event]
      simp only [he]
      exact hupd _
    · rw [inject_event]
      simp only [he]

/-- C10 witness: an envelope tagged `/nope` on a behaviour that only knows
`/rq/1` leaves the state unchanged. -/
theorem c10_witness :
    findEntry stC10.protocols protoNope = none ∧
    inject_event stC10 1 2 (protoNope, 3) = stC10 :=
  ⟨rfl, (c10_inject_event_routing stC10 1 2 protoNope 3).1 rfl⟩

end RequestResponses
